import Mathlib

/-!
Shallow embedding of the Instance Orchestration & Log-Capture subsystem of
craft-ec/craftstudio (`apps/desktop/src-tauri/src/daemon_manager.rs`).

The `DaemonManager` is modelled as a pure state machine: the registry
(`daemons : Mutex<Vec<ManagedDaemon>>`), the shared log map
(`logs : SharedLogs = Arc<Mutex<HashMap<u32, Vec<LogLine>>>>`) and the
`next_index : Mutex<u32>` counter form the state.  External effects that the
source observes (home directory lookup, the TCP probe, filesystem and
keystore results, the derived DID) are supplied through a `StartEnv` record
of oracles, so `start` becomes a total function from state, request and
environment to an outcome.  The execution units spawned by `start` are
modelled by a `finished` flag on each registry entry together with explicit
environment steps (`finish`, the daemon-init-failure log push, and delivery
of a tracing event to `DaemonLogLayer::on_event`).
-/

/-- Caller-supplied start request (struct `DaemonConfig` in the source).
All fields optional; `binary_path` is declared in the source with the comment
"ignored, kept for API compat". -/
structure DaemonConfig where
  data_dir : Option String
  socket_path : Option String
  ws_port : Option Nat
  listen_addr : Option String
  binary_path : Option String
  capabilities : Option (List String)
  deriving DecidableEq, Repr

/-- Descriptor returned to the caller (struct `DaemonInstance`): `pid` is the
instance id (the source comments it is not a real PID). -/
structure DaemonInstance where
  pid : Nat
  ws_port : Nat
  data_dir : String
  socket_path : String
  listen_addr : String
  primary : Bool
  did : String
  deriving DecidableEq, Repr

/-- One captured log line (struct `LogLine`). -/
structure LogLine where
  pid : Nat
  line : String
  is_stderr : Bool
  deriving DecidableEq, Repr

/-- Registry entry (struct `ManagedDaemon`): the joined task handle is
abstracted to the one bit the orchestrator ever reads from it,
`_handle.is_finished()`. -/
structure ManagedDaemon where
  info : DaemonInstance
  finished : Bool
  deriving DecidableEq, Repr

/-- The log map `HashMap<u32, Vec<LogLine>>`, as an association list with at
most one entry per key. -/
abbrev LogMap := List (Nat × List LogLine)

/-- Lookup in the log map (`HashMap::get`). -/
def lmGet (m : LogMap) (k : Nat) : Option (List LogLine) :=
  match m with
  | [] => none
  | kv :: rest => if kv.1 = k then some kv.2 else lmGet rest k

/-- Insert-or-replace in the log map (`HashMap::insert`). -/
def lmInsert (m : LogMap) (k : Nat) (v : List LogLine) : LogMap :=
  match m with
  | [] => [(k, v)]
  | kv :: rest => if kv.1 = k then (k, v) :: rest else kv :: lmInsert rest k v

/-- Remove a key from the log map (`HashMap::remove`). -/
def lmRemove (m : LogMap) (k : Nat) : LogMap :=
  match m with
  | [] => []
  | kv :: rest => if kv.1 = k then rest else kv :: lmRemove rest k

/-- Update the value at a key when present (the `if let Some(v) = logs.get_mut(&id)`
pattern); absent keys are left untouched. -/
def lmUpdate (m : LogMap) (k : Nat) (f : List LogLine → List LogLine) : LogMap :=
  match m with
  | [] => []
  | kv :: rest => if kv.1 = k then (kv.1, f kv.2) :: rest else kv :: lmUpdate rest k f

/-- Whole manager state: `daemons`, `logs` and `next_index`. -/
structure ManagerState where
  daemons : List ManagedDaemon
  logs : LogMap
  nextIndex : Nat
  deriving DecidableEq, Repr

/-- State built by `DaemonManager::new`. -/
def initState : ManagerState := { daemons := [], logs := [], nextIndex := 0 }

/-- Oracles for everything `start` observes outside the manager state. -/
structure StartEnv where
  /-- Result of `dirs::home_dir()`. -/
  homeDir : Option String
  /-- Whether `TcpStream::connect("127.0.0.1:<ws_port>")` succeeds. -/
  tcpProbeConnects : Bool
  /-- Whether `config.json` already exists in the data directory. -/
  configFileExists : Bool
  /-- Content of the existing `config.json`, as an opaque field map. -/
  existingConfig : List (String × String)
  /-- Serialized `craftobj_daemon::config::DaemonConfig::default()`. -/
  defaultConfig : List (String × String)
  /-- Whether `DaemonConfig::save_to` succeeds. -/
  configSaveOk : Bool
  /-- Whether the existing config carries a numeric `listen_port` field
  (read only on the empty-`listen_addr` branch). -/
  configListenPortPresent : Bool
  /-- Whether `std::fs::create_dir_all(&data_dir_path)` succeeds. -/
  createDirOk : Bool
  createDirErr : String
  /-- Whether `craftec_keystore::load_or_generate_keypair` succeeds. -/
  keystoreOk : Bool
  keystoreErr : String
  /-- Whether `ed25519::SecretKey::try_from_bytes` succeeds. -/
  ed25519Ok : Bool
  ed25519Err : String
  /-- Whether the multiaddr parse of the listen address succeeds. -/
  listenAddrParseOk : Bool
  parseErr : String
  /-- Whether `CraftNetService::new_with_data_dir` succeeds. -/
  craftnetOk : Bool
  craftnetErr : String
  /-- The DID string derived from the instance's signing key. -/
  did : String
  deriving DecidableEq, Repr

/-- Split a character list at `/` boundaries (the groups of `split('/')`,
of which `rsplit('/').next()` takes the last). -/
def splitSlash : List Char → List (List Char)
  | [] => [[]]
  | c :: rest =>
      match splitSlash rest with
      | g :: gs => if c = '/' then [] :: g :: gs else (c :: g) :: gs
      | [] => if c = '/' then [[], []] else [[c]]

/-- Last `/`-separated segment of a string: `s.rsplit('/').next()`, which on a
non-empty pattern always yields at least the whole string. -/
def lastSegment (s : String) : String :=
  String.mk ((splitSlash s.data).getLastD [])

/-- Rust `str::parse::<u16>()` on a character list: optional leading `+`, then
one or more ASCII digits, value below 2^16; anything else is a parse error. -/
def parseU16chars (cs0 : List Char) : Option Nat :=
  let cs := match cs0 with
    | '+' :: rest => rest
    | _ => cs0
  if cs.isEmpty then none
  else if cs.all (fun c => c.isDigit) then
    let n := cs.foldl (fun n c => n * 10 + (c.toNat - 48)) 0
    if n < 65536 then some n else none
  else none

/-- Rust `str::parse::<u16>()`. -/
def parseU16 (s : String) : Option Nat :=
  parseU16chars s.data

/-- Boot-peer multiaddress built for one live sibling: extract the port from
its `listen_addr` (defaulting to 0 on parse failure) and point a loopback
multiaddr at it. -/
def bootPeerOf (d : ManagedDaemon) : String :=
  let port := (parseU16 (lastSegment d.info.listen_addr)).getD 0
  s!"/ip4/127.0.0.1/tcp/{port}"

/-- Live registry entries: those whose execution unit has not finished. -/
def liveDaemons (s : ManagerState) : List ManagedDaemon :=
  s.daemons.filter (fun d => !d.finished)

/-- Boot peers collected from the already-running instances. -/
def bootPeersOf (s : ManagerState) : List String :=
  (liveDaemons s).map bootPeerOf

/-- Modelled from the spec: `craftobj_daemon::config::DaemonConfig` and its
`load_from`/`save_to` round-trip are outside this repository's sources; per
spec section 6 the config store holds an opaque JSON document of which the
orchestrator only ever touches the `capabilities`, `listen_port`, `ws_port`,
`socket_path` and `boot_peers` fields, leaving all others untouched on merge.
A document is a field-name/value association list and `setField` replaces (or
appends) a single field. -/
def setField (doc : List (String × String)) (k v : String) : List (String × String) :=
  if doc.any (fun kv => kv.1 = k) then
    doc.map (fun kv => if kv.1 = k then (k, v) else kv)
  else doc ++ [(k, v)]

/-- Opaque serialization of a string-list-valued config field. -/
def listValue (xs : List String) : String :=
  String.intercalate "," xs

deriving instance DecidableEq for Except

/-- Resolved external port: `config.ws_port.unwrap_or(9091 + instance_id as u16)`
(u16 arithmetic wraps). -/
def resolveWsPort (s : ManagerState) (cfg : DaemonConfig) : Nat :=
  cfg.ws_port.getD ((9091 + s.nextIndex % 65536) % 65536)

/-- Outcome of one `start` call: the returned `Result`, the manager state
after the call, the `config.json` content written during the merge/persist
step (none when nothing was written), and whether execution reached the
log-buffer initialization. -/
structure StartOutcome where
  result : Except String DaemonInstance
  state : ManagerState
  configWrite : Option (List (String × String))
  bufferInitialized : Bool
  deriving DecidableEq, Repr

/-- Internal listen port:
`if is_primary { 44001 } else { 44001 + instance_id as u16 }` (u16 wraps). -/
def resolveListenPort (s : ManagerState) : Nat :=
  if s.nextIndex = 0 then 44001 else (44001 + s.nextIndex % 65536) % 65536

/-- Data directory: override, else `<home>/.craftobj` for the primary, else
`/tmp/craftobj-node-<instance_id>`. -/
def resolveDataDir (s : ManagerState) (cfg : DaemonConfig) (env : StartEnv) : String :=
  cfg.data_dir.getD
    (if s.nextIndex = 0 then (env.homeDir.getD ".") ++ "/.craftobj"
     else s!"/tmp/craftobj-node-{s.nextIndex}")

/-- Socket path: override, else `/tmp/craftobj.sock` for the primary, else
`/tmp/craftobj-<instance_id>.sock`. -/
def resolveSocketPath (s : ManagerState) (cfg : DaemonConfig) : String :=
  cfg.socket_path.getD
    (if s.nextIndex = 0 then "/tmp/craftobj.sock" else s!"/tmp/craftobj-{s.nextIndex}.sock")

/-- Listen multiaddress: override, else all-interfaces at the internal port. -/
def resolveListenAddr (s : ManagerState) (cfg : DaemonConfig) : String :=
  cfg.listen_addr.getD s!"/ip4/0.0.0.0/tcp/{resolveListenPort s}"

/-- Tracked-port conflict test run after pruning finished tasks:
`daemons.iter().any(|d| d.info.ws_port == ws_port)`. -/
def trackedConflict (s : ManagerState) (cfg : DaemonConfig) : Bool :=
  (s.daemons.filter (fun d => !d.finished)).any
    (fun d => d.info.ws_port = resolveWsPort s cfg)

/-- Boot peers of a start call, collected from the pruned registry (the
source re-filters on `is_finished`, which after pruning changes nothing). -/
def startBootPeers (s : ManagerState) : List String :=
  ((s.daemons.filter (fun d => !d.finished)).filter (fun d => !d.finished)).map bootPeerOf

/-- The `config.json` content written by the merge/persist step, when one is
written: a synthesized default when no file exists, the loaded file with only
`boot_peers` replaced when one exists and the peer list is non-empty; `none`
when nothing is written (save failure included, which the source only logs). -/
def mergedConfigWrite (s : ManagerState) (cfg : DaemonConfig) (env : StartEnv) :
    Option (List (String × String)) :=
  if !env.configFileExists then
    if env.configSaveOk then
      some (setField (setField (setField (setField (setField (setField
        env.defaultConfig
        "capabilities" (listValue (cfg.capabilities.getD ["client"])))
        "listen_port" (toString (resolveListenPort s)))
        "ws_port" (toString (resolveWsPort s cfg)))
        "socket_path" (resolveSocketPath s cfg))
        "max_storage_bytes" "10737418240")
        "boot_peers" (listValue (startBootPeers s)))
    else none
  else if !(startBootPeers s).isEmpty then
    if env.configSaveOk then
      some (setField env.existingConfig "boot_peers" (listValue (startBootPeers s)))
    else none
  else none

/-- Whether the listen-address parse step fails: the resolved address is
parsed when non-empty; with an empty caller override the source falls back to
the config file's `listen_port` when the file exists and carries one. -/
def listenParseFails (s : ManagerState) (cfg : DaemonConfig) (env : StartEnv) : Bool :=
  if !(resolveListenAddr s cfg).isEmpty then !env.listenAddrParseOk
  else if (env.configFileExists || env.configSaveOk) && env.configListenPortPresent then
    !env.listenAddrParseOk
  else false

/-- Error message of a failed listen-address parse. -/
def listenParseErrMsg (s : ManagerState) (cfg : DaemonConfig) (env : StartEnv) : String :=
  if !(resolveListenAddr s cfg).isEmpty then s!"Invalid listen addr: {env.parseErr}"
  else s!"Invalid addr: {env.parseErr}"

/-- Shallow embedding of `DaemonManager::start`, following the source's
control flow step by step: resolve endpoints, prune and conflict-check, TCP
probe, collect boot peers, write or merge the config file, create the data
directory, load the keypair, convert it, parse the listen address, initialize
the log buffer, create the CraftNet service, then register the instance and
increment the counter. -/
def startOutcome (s : ManagerState) (cfg : DaemonConfig) (env : StartEnv) : StartOutcome :=
  if trackedConflict s cfg then
    { result := Except.error s!"A daemon is already running on ws_port {resolveWsPort s cfg}"
      state := { s with daemons := s.daemons.filter (fun d => !d.finished) }
      configWrite := none, bufferInitialized := false }
  else if env.tcpProbeConnects then
    { result := Except.error s!"Port {resolveWsPort s cfg} already in use — daemon already running"
      state := { s with daemons := s.daemons.filter (fun d => !d.finished) }
      configWrite := none, bufferInitialized := false }
  else if !env.createDirOk then
    { result := Except.error s!"Failed to create data dir: {env.createDirErr}"
      state := { s with daemons := s.daemons.filter (fun d => !d.finished) }
      configWrite := mergedConfigWrite s cfg env, bufferInitialized := false }
  else if !env.keystoreOk then
    { result := Except.error s!"Failed to load/generate node keypair: {env.keystoreErr}"
      state := { s with daemons := s.daemons.filter (fun d => !d.finished) }
      configWrite := mergedConfigWrite s cfg env, bufferInitialized := false }
  else if !env.ed25519Ok then
    { result := Except.error s!"Invalid ed25519 secret: {env.ed25519Err}"
      state := { s with daemons := s.daemons.filter (fun d => !d.finished) }
      configWrite := mergedConfigWrite s cfg env, bufferInitialized := false }
  else if listenParseFails s cfg env then
    { result := Except.error (listenParseErrMsg s cfg env)
      state := { s with daemons := s.daemons.filter (fun d => !d.finished) }
      configWrite := mergedConfigWrite s cfg env, bufferInitialized := false }
  else if !env.craftnetOk then
    { result := Except.error s!"Failed to create CraftNet service: {env.craftnetErr}"
      state := { s with daemons := s.daemons.filter (fun d => !d.finished)
                        logs := lmInsert s.logs s.nextIndex [] }
      configWrite := mergedConfigWrite s cfg env, bufferInitialized := true }
  else
    { result := Except.ok
        { pid := s.nextIndex, ws_port := resolveWsPort s cfg
          data_dir := resolveDataDir s cfg env
          socket_path := resolveSocketPath s cfg
          listen_addr := resolveListenAddr s cfg
          primary := s.nextIndex = 0, did := env.did }
      state := { daemons := s.daemons.filter (fun d => !d.finished) ++
                   [{ info := { pid := s.nextIndex, ws_port := resolveWsPort s cfg
                                data_dir := resolveDataDir s cfg env
                                socket_path := resolveSocketPath s cfg
                                listen_addr := resolveListenAddr s cfg
                                primary := s.nextIndex = 0, did := env.did }
                      finished := false }]
                 logs := lmInsert s.logs s.nextIndex []
                 nextIndex := s.nextIndex + 1 }
      configWrite := mergedConfigWrite s cfg env, bufferInitialized := true }

/-- Removal of the first registry entry with a given id
(`position` + `Vec::remove`). -/
def removeFirst (l : List ManagedDaemon) (pid : Nat) : List ManagedDaemon :=
  match l with
  | [] => []
  | d :: rest => if d.info.pid = pid then rest else d :: removeFirst rest pid

/-- Shallow embedding of `DaemonManager::stop`: find the instance by id
(`NotFound`-style error when absent), remove it, issue the abort, and delete
its log buffer. -/
def stopFn (s : ManagerState) (pid : Nat) : Except String Unit × ManagerState :=
  if s.daemons.any (fun d => d.info.pid = pid) then
    (Except.ok (),
     { s with daemons := removeFirst s.daemons pid
              logs := lmRemove s.logs pid })
  else
    (Except.error s!"No daemon with instance ID {pid}", s)

/-- Shallow embedding of `DaemonManager::list`: prune naturally-finished
instances, return the descriptors of the rest. -/
def listFn (s : ManagerState) : List DaemonInstance × ManagerState :=
  let pruned := s.daemons.filter (fun d => !d.finished)
  (pruned.map (fun d => d.info), { s with daemons := pruned })

/-- Shallow embedding of `DaemonManager::get_logs`: slice of the buffer from
`since`, empty when out of range or when the id has no buffer. -/
def getLogsFn (s : ManagerState) (pid : Nat) (since : Nat) : List LogLine :=
  match lmGet s.logs pid with
  | some v => if since < v.length then v.drop since else []
  | none => []

/-- Shallow embedding of `DaemonManager::stop_all`: abort everything, clear
the registry and all log buffers. -/
def stopAllFn (s : ManagerState) : ManagerState :=
  { s with daemons := [], logs := [] }

/-- One append performed by `DaemonLogLayer::on_event` on a buffer that
exists: push, then `drain(..len-500)` once the length exceeds 500. -/
def layerAppend (v : List LogLine) (l : LogLine) : List LogLine :=
  let v' := v ++ [l]
  if 500 < v'.length then v'.drop (v'.length - 500) else v'

/-- The direct push performed inside the spawned task when
`craftobj_daemon::init_daemon` fails: a plain `Vec::push` with no truncation. -/
def initFailAppend (v : List LogLine) (l : LogLine) : List LogLine :=
  v ++ [l]

/-- One append operation on a per-instance buffer, as performed somewhere in
the source: either `DaemonLogLayer::on_event` (capped) or the init-failure
push inside the spawned task (uncapped). -/
inductive AppendOp where
  | layer (l : LogLine)
  | initFailure (l : LogLine)
  deriving DecidableEq, Repr

/-- Apply one append operation to a buffer. -/
def applyAppend (v : List LogLine) (op : AppendOp) : List LogLine :=
  match op with
  | AppendOp.layer l => layerAppend v l
  | AppendOp.initFailure l => initFailAppend v l

/-- Apply a sequence of append operations to a buffer. -/
def applyAppends (ops : List AppendOp) (v : List LogLine) : List LogLine :=
  ops.foldl applyAppend v

/-- One call against the manager, or one environment event affecting it:
`finish` marks an execution unit as terminated on its own, `logEvent` is the
tracing layer delivering a formatted record attributed to an instance id, and
`initFail` is the spawned task recording an init failure into its buffer. -/
inductive Op where
  | start (cfg : DaemonConfig) (env : StartEnv)
  | stop (pid : Nat)
  | list
  | getLogs (pid : Nat) (since : Nat)
  | stopAll
  | finish (pid : Nat)
  | logEvent (id : Nat) (line : String)
  | initFail (id : Nat) (msg : String)
  deriving DecidableEq, Repr

/-- State transition of one operation. -/
def step (s : ManagerState) (op : Op) : ManagerState :=
  match op with
  | Op.start cfg env => (startOutcome s cfg env).state
  | Op.stop pid => (stopFn s pid).2
  | Op.list => (listFn s).2
  | Op.getLogs _ _ => s
  | Op.stopAll => stopAllFn s
  | Op.finish pid =>
      { s with daemons :=
          s.daemons.map (fun d => if d.info.pid = pid then { d with finished := true } else d) }
  | Op.logEvent id line =>
      { s with logs := lmUpdate s.logs id (fun v => layerAppend v { pid := id, line := line, is_stderr := false }) }
  | Op.initFail id msg =>
      { s with logs := lmUpdate s.logs id (fun v => initFailAppend v { pid := id, line := msg, is_stderr := true }) }

/-- Run a sequence of operations from a state. -/
def run (s : ManagerState) (ops : List Op) : ManagerState :=
  ops.foldl step s

/-- Pairing between log buffers and registry entries: the key set of the log
map equals the set of registered instance ids. -/
def logKeysMatch (s : ManagerState) : Bool :=
  s.logs.all (fun kv => s.daemons.any (fun d => d.info.pid = kv.1)) &&
  s.daemons.all (fun d => s.logs.any (fun kv => kv.1 = d.info.pid))

/-- Port-uniqueness invariant: registered instances claim pairwise-distinct
external ports. -/
def portsDistinct (s : ManagerState) : Prop :=
  (s.daemons.map (fun d => d.info.ws_port)).Nodup

/-- Step function that additionally collects the `instance_id` assigned by
each successful `start`. -/
def stepIds (p : ManagerState × List Nat) (op : Op) : ManagerState × List Nat :=
  match op with
  | Op.start cfg env =>
      let o := startOutcome p.1 cfg env
      match o.result with
      | Except.ok inst => (o.state, p.2 ++ [inst.pid])
      | Except.error _ => (o.state, p.2)
  | _ => (step p.1 op, p.2)

/-- Run a sequence of operations collecting the assigned instance ids. -/
def runIds (s : ManagerState) (ops : List Op) : ManagerState × List Nat :=
  ops.foldl stepIds (s, [])

/-- Benign operations for the buffer/registry pairing: a `list` or `start`
must not prune a naturally-finished instance, and a `start` must not fail
after its log buffer was initialized. -/
def benignB (s : ManagerState) (op : Op) : Bool :=
  match op with
  | Op.list => s.daemons.all (fun d => !d.finished)
  | Op.start cfg env =>
      s.daemons.all (fun d => !d.finished) &&
      (let o := startOutcome s cfg env
       !(o.bufferInitialized && !o.result.toBool))
  | _ => true

/-- All operations along a run are benign. -/
def benignFrom (s : ManagerState) : List Op → Bool
  | [] => true
  | op :: ops => benignB s op && benignFrom (step s op) ops

/-- Well-formedness of the log map carried over from `HashMap`: keys are
pairwise distinct. -/
def logsWF (s : ManagerState) : Prop :=
  (s.logs.map Prod.fst).Nodup

/-- Record of the TCP connect call issued by the Port Conflict Guard. -/
structure TcpConnectCall where
  addr : String
  /-- Explicit connect timeout in milliseconds, when one is supplied. -/
  timeoutMs : Option Nat
  deriving DecidableEq, Repr

/-- The live probe performed by `start`:
`std::net::TcpStream::connect(format!("127.0.0.1:{}", ws_port))` — the
one-argument `connect`, not `connect_timeout`, so no explicit timeout is
supplied and the call blocks for the operating system's default connect
timeout. -/
def startTcpProbe (ws_port : Nat) : TcpConnectCall :=
  { addr := s!"127.0.0.1:{ws_port}", timeoutMs := none }

-- ───────────────────────── helper lemmas ─────────────────────────

theorem lmGet_eq_none_of_not_mem (m : LogMap) (k : Nat)
    (h : k ∉ m.map Prod.fst) : lmGet m k = none := by
  induction m with
  | nil => rfl
  | cons kv rest ih =>
      simp only [List.map_cons, List.mem_cons, not_or] at h
      simp only [lmGet, if_neg (fun he : kv.1 = k => h.1 he.symm)]
      exact ih h.2

theorem lmGet_lmRemove_self (m : LogMap) (k : Nat)
    (hwf : (m.map Prod.fst).Nodup) : lmGet (lmRemove m k) k = none := by
  induction m with
  | nil => rfl
  | cons kv rest ih =>
      simp only [List.map_cons, List.nodup_cons] at hwf
      by_cases hk : kv.1 = k
      · simp only [lmRemove, if_pos hk]
        exact lmGet_eq_none_of_not_mem rest k (hk ▸ hwf.1)
      · simp only [lmRemove, if_neg hk, lmGet, if_neg hk]
        exact ih hwf.2

theorem startOutcome_shape (s : ManagerState) (cfg : DaemonConfig) (env : StartEnv) :
    ((startOutcome s cfg env).result.toBool = true ∧
      (startOutcome s cfg env).bufferInitialized = true ∧
      trackedConflict s cfg = false ∧
      (∃ info : DaemonInstance, info.ws_port = resolveWsPort s cfg ∧ info.pid = s.nextIndex ∧
        (startOutcome s cfg env).result = Except.ok info ∧
        (startOutcome s cfg env).state.daemons
          = s.daemons.filter (fun d => !d.finished) ++ [⟨info, false⟩]) ∧
      (startOutcome s cfg env).state.logs = lmInsert s.logs s.nextIndex [] ∧
      (startOutcome s cfg env).state.nextIndex = s.nextIndex + 1) ∨
    ((startOutcome s cfg env).result.toBool = false ∧
      (startOutcome s cfg env).state.daemons = s.daemons.filter (fun d => !d.finished) ∧
      (startOutcome s cfg env).state.nextIndex = s.nextIndex ∧
      (((startOutcome s cfg env).bufferInitialized = false ∧
        (startOutcome s cfg env).state.logs = s.logs) ∨
       ((startOutcome s cfg env).bufferInitialized = true ∧
        (startOutcome s cfg env).state.logs = lmInsert s.logs s.nextIndex []))) := by
  unfold startOutcome
  split
  · right; simp [Except.toBool]
  · split
    · right; simp [Except.toBool]
    · split
      · right; simp [Except.toBool]
      · split
        · right; simp [Except.toBool]
        · split
          · right; simp [Except.toBool]
          · split
            · right; simp [Except.toBool]
            · split
              · right; simp [Except.toBool]
              · rename_i hconf _ _ _ _ _ _
                left
                refine ⟨rfl, rfl, by simpa using hconf, ⟨_, rfl, rfl, rfl, rfl⟩, rfl, rfl⟩

theorem startBootPeers_eq (s : ManagerState) : startBootPeers s = bootPeersOf s := by
  simp [startBootPeers, bootPeersOf, liveDaemons, List.filter_filter]

theorem start_conflict_outcome (s : ManagerState) (cfg : DaemonConfig) (env : StartEnv)
    (h : trackedConflict s cfg = true) :
    startOutcome s cfg env =
      { result := Except.error s!"A daemon is already running on ws_port {resolveWsPort s cfg}"
        state := { s with daemons := s.daemons.filter (fun d => !d.finished) }
        configWrite := none, bufferInitialized := false } := by
  simp [startOutcome, h]

theorem liveDaemons_filter_idem (s : ManagerState) (rest : LogMap) (n : Nat) :
    liveDaemons { daemons := s.daemons.filter (fun d => !d.finished), logs := rest, nextIndex := n }
      = s.daemons.filter (fun d => !d.finished) := by
  simp [liveDaemons, List.filter_filter]

theorem step_nextIndex (s : ManagerState) (op : Op)
    (h : ∀ cfg env, op ≠ Op.start cfg env) : (step s op).nextIndex = s.nextIndex := by
  cases op with
  | start cfg env => exact absurd rfl (h cfg env)
  | stop pid => simp only [step, stopFn]; split <;> rfl
  | list => rfl
  | getLogs pid since => rfl
  | stopAll => rfl
  | finish pid => rfl
  | logEvent id line => rfl
  | initFail id msg => rfl

theorem removeFirst_sublist (l : List ManagedDaemon) (pid : Nat) :
    (removeFirst l pid).Sublist l := by
  induction l with
  | nil => simp [removeFirst]
  | cons d rest ih =>
      by_cases hd : d.info.pid = pid
      · rw [show removeFirst (d :: rest) pid = rest from by
          simp only [removeFirst]; rw [if_pos hd]]
        exact List.sublist_cons_self d rest
      · rw [show removeFirst (d :: rest) pid = d :: removeFirst rest pid from by
          simp only [removeFirst]; rw [if_neg hd]]
        exact ih.cons₂ d

theorem step_daemons_ports (s : ManagerState) (op : Op)
    (h : ∀ cfg env, op ≠ Op.start cfg env) :
    ((step s op).daemons.map (fun d => d.info.ws_port)).Sublist
        (s.daemons.map (fun d => d.info.ws_port)) ∨
    (step s op).daemons.map (fun d => d.info.ws_port)
        = s.daemons.map (fun d => d.info.ws_port) := by
  cases op with
  | start cfg env => exact absurd rfl (h cfg env)
  | stop pid =>
      left
      simp only [step, stopFn]
      split
      · exact List.Sublist.map _ (removeFirst_sublist _ _)
      · exact List.Sublist.refl _
  | list => exact Or.inl (List.Sublist.map _ (List.filter_sublist _))
  | getLogs pid since => exact Or.inr rfl
  | stopAll => exact Or.inl (List.nil_sublist _)
  | finish pid =>
      right
      simp only [step, List.map_map]
      apply List.map_congr_left
      intro d _
      by_cases hd : d.info.pid = pid <;> simp [hd]
  | logEvent id line => exact Or.inr rfl
  | initFail id msg => exact Or.inr rfl

theorem portsDistinct_step (s : ManagerState) (op : Op)
    (hs : portsDistinct s) : portsDistinct (step s op) := by
  cases op with
  | start cfg env =>
      show portsDistinct (startOutcome s cfg env).state
      rcases startOutcome_shape s cfg env with
        ⟨_, _, hconf, ⟨info, hport, _, _, hdm⟩, _, _⟩ | ⟨_, hdm, _, _⟩
      · unfold portsDistinct
        rw [hdm, List.map_append]
        simp only [List.map_cons, List.map_nil]
        rw [List.nodup_append]
        refine ⟨(List.Sublist.map _ (List.filter_sublist _)).nodup hs,
          List.nodup_singleton _, ?_⟩
        intro x hx
        simp only [List.mem_map] at hx
        obtain ⟨d, hd, hxe⟩ := hx
        simp only [List.mem_singleton]
        intro hxi
        have : d.info.ws_port = resolveWsPort s cfg := by rw [hxe, hxi, hport]
        have hany : (s.daemons.filter (fun d => !d.finished)).any
            (fun d => d.info.ws_port = resolveWsPort s cfg) = true :=
          List.any_eq_true.mpr ⟨d, hd, by simp [this]⟩
        rw [trackedConflict] at hconf
        rw [hconf] at hany
        exact Bool.false_ne_true hany
      · unfold portsDistinct
        rw [hdm]
        exact (List.Sublist.map _ (List.filter_sublist _)).nodup hs
  | stop pid =>
      rcases step_daemons_ports s (Op.stop pid) (by intro cfg env h; cases h) with hsub | heq
      · exact hsub.nodup hs
      · unfold portsDistinct; rw [heq]; exact hs
  | list =>
      rcases step_daemons_ports s Op.list (by intro cfg env h; cases h) with hsub | heq
      · exact hsub.nodup hs
      · unfold portsDistinct; rw [heq]; exact hs
  | getLogs pid since => exact hs
  | stopAll => exact List.nodup_nil
  | finish pid =>
      rcases step_daemons_ports s (Op.finish pid) (by intro cfg env h; cases h) with hsub | heq
      · exact hsub.nodup hs
      · unfold portsDistinct; rw [heq]; exact hs
  | logEvent id line => exact hs
  | initFail id msg => exact hs

/-- An all-defaults start request. -/
def cfgNone : DaemonConfig :=
  { data_dir := none, socket_path := none, ws_port := none, listen_addr := none
    binary_path := none, capabilities := none }

/-- A start request with an explicit port override. -/
def cfgP : DaemonConfig :=
  { data_dir := none, socket_path := none, ws_port := some 9091, listen_addr := none
    binary_path := none, capabilities := none }

/-- An environment in which every external effect succeeds. -/
def envOk : StartEnv :=
  { homeDir := some "/home/u", tcpProbeConnects := false, configFileExists := false
    existingConfig := [], defaultConfig := [], configSaveOk := true
    configListenPortPresent := false, createDirOk := true, createDirErr := ""
    keystoreOk := true, keystoreErr := "", ed25519Ok := true, ed25519Err := ""
    listenAddrParseOk := true, parseErr := "", craftnetOk := true, craftnetErr := ""
    did := "did:test:0" }

/-- An environment in which the live TCP probe finds a foreign listener. -/
def envProbe : StartEnv := { envOk with tcpProbeConnects := true }

theorem foldl_stepIds_inv (ops : List Op) :
    ∀ (s : ManagerState) (ids : List Nat), ids = List.range s.nextIndex →
      (ops.foldl stepIds (s, ids)).2 = List.range (ops.foldl stepIds (s, ids)).1.nextIndex := by
  induction ops with
  | nil => intro s ids h; simpa using h
  | cons op ops ih =>
      intro s ids h
      rw [List.foldl_cons]
      cases op with
      | start cfg env =>
          rcases hres : (startOutcome s cfg env).result with e | inst
          · have hstep : stepIds (s, ids) (Op.start cfg env)
                = ((startOutcome s cfg env).state, ids) := by
              simp [stepIds, hres]
            rw [hstep]
            apply ih
            rcases startOutcome_shape s cfg env with
              ⟨htb, _⟩ | ⟨_, _, hni, _⟩
            · rw [hres] at htb; exact absurd htb (by simp [Except.toBool])
            · rw [hni]; exact h
          · have hstep : stepIds (s, ids) (Op.start cfg env)
                = ((startOutcome s cfg env).state, ids ++ [inst.pid]) := by
              simp [stepIds, hres]
            rw [hstep]
            apply ih
            rcases startOutcome_shape s cfg env with
              ⟨_, _, _, ⟨info, _, hpid, hok, _⟩, _, hni⟩ | ⟨htb, _⟩
            · rw [hres] at hok
              have hinfo : info = inst := by
                injection hok with hinj
                exact hinj.symm
              rw [hni, h, ← hinfo, hpid, List.range_succ]
            · rw [hres] at htb; exact absurd htb (by simp [Except.toBool])
      | stop pid =>
          have hstep : stepIds (s, ids) (Op.stop pid) = (step s (Op.stop pid), ids) := rfl
          rw [hstep]
          apply ih
          rw [step_nextIndex s (Op.stop pid) (by intro cfg env hne; cases hne)]
          exact h
      | list =>
          apply ih
          rw [step_nextIndex s Op.list (by intro cfg env hne; cases hne)]
          exact h
      | getLogs pid since =>
          apply ih
          rw [step_nextIndex s (Op.getLogs pid since) (by intro cfg env hne; cases hne)]
          exact h
      | stopAll =>
          apply ih
          rw [step_nextIndex s Op.stopAll (by intro cfg env hne; cases hne)]
          exact h
      | finish pid =>
          apply ih
          rw [step_nextIndex s (Op.finish pid) (by intro cfg env hne; cases hne)]
          exact h
      | logEvent id line =>
          apply ih
          rw [step_nextIndex s (Op.logEvent id line) (by intro cfg env hne; cases hne)]
          exact h
      | initFail id msg =>
          apply ih
          rw [step_nextIndex s (Op.initFail id msg) (by intro cfg env hne; cases hne)]
          exact h

theorem filter_map_setField (doc : List (String × String)) (k v : String) :
    (doc.map (fun kv => if kv.1 = k then (k, v) else kv)).filter (fun kv => !(kv.1 == k))
      = doc.filter (fun kv => !(kv.1 == k)) := by
  induction doc with
  | nil => rfl
  | cons kv rest ih =>
      by_cases hk : kv.1 = k
      · simp only [List.map_cons, if_pos hk, List.filter_cons]
        rw [show ((!(k == k)) = false) by simp, show ((!(kv.1 == k)) = false) by simp [hk]]
        exact ih
      · simp only [List.map_cons, if_neg hk, List.filter_cons]
        rw [show ((!(kv.1 == k)) = true) by simp [hk]]
        rw [ih]

theorem setField_filter_ne (doc : List (String × String)) (k v : String) :
    (setField doc k v).filter (fun kv => !(kv.1 == k))
      = doc.filter (fun kv => !(kv.1 == k)) := by
  unfold setField
  by_cases hany : doc.any (fun kv => kv.1 = k)
  · rw [if_pos hany]
    exact filter_map_setField doc k v
  · rw [if_neg hany, List.filter_append]
    simp

theorem lookup_map_setField (doc : List (String × String)) (k v : String)
    (h : doc.any (fun kv => kv.1 = k) = true) :
    List.lookup k (doc.map (fun kv => if kv.1 = k then (k, v) else kv)) = some v := by
  induction doc with
  | nil => simp at h
  | cons kv rest ih =>
      by_cases hk : kv.1 = k
      · simp only [List.map_cons, if_pos hk]
        simp [List.lookup]
      · simp only [List.map_cons, if_neg hk]
        have hne : (k == kv.1) = false := beq_eq_false_iff_ne.mpr (fun he => hk he.symm)
        simp only [List.lookup, hne]
        apply ih
        simp only [List.any_cons, Bool.or_eq_true] at h
        rcases h with h | h
        · exact absurd (by simpa using h) hk
        · exact h

theorem setField_lookup_self (doc : List (String × String)) (k v : String) :
    List.lookup k (setField doc k v) = some v := by
  unfold setField
  by_cases hany : doc.any (fun kv => kv.1 = k)
  · rw [if_pos hany]
    exact lookup_map_setField doc k v hany
  · rw [if_neg hany]
    induction doc with
    | nil => simp [List.lookup]
    | cons kv rest ih =>
        simp only [List.any_cons, Bool.or_eq_true, not_or] at hany
        have hne : (k == kv.1) = false := by
          refine beq_eq_false_iff_ne.mpr (fun he => hany.1 ?_)
          simp [he.symm]
        simp only [List.cons_append, List.lookup, hne]
        exact ih hany.2

theorem startOutcome_configWrite (s : ManagerState) (cfg : DaemonConfig) (env : StartEnv)
    (hconf : trackedConflict s cfg = false) (hprobe : env.tcpProbeConnects = false) :
    (startOutcome s cfg env).configWrite = mergedConfigWrite s cfg env := by
  unfold startOutcome
  rw [hconf, hprobe]
  simp only [Bool.false_eq_true, if_false]
  split
  · rfl
  · split
    · rfl
    · split
      · rfl
      · split
        · rfl
        · split
          · rfl
          · rfl

-- ───────────────────────── claim theorems ─────────────────────────

/-- Suffix of the last `n` elements of a buffer. -/
def keepLast (n : Nat) (v : List LogLine) : List LogLine :=
  v.drop (v.length - n)

theorem layerAppend_eq (v : List LogLine) (l : LogLine) :
    layerAppend v l = keepLast 500 (v ++ [l]) := by
  unfold layerAppend keepLast
  by_cases h : 500 < (v ++ [l]).length
  · rw [if_pos h]
  · rw [if_neg h, Nat.sub_eq_zero_of_le (Nat.not_lt.mp h), List.drop_zero]

theorem keepLast_length_le (n : Nat) (v : List LogLine) : (keepLast n v).length ≤ n := by
  unfold keepLast
  rw [List.length_drop]
  omega

theorem keepLast_append (n : Nat) (a b : List LogLine) :
    keepLast n (keepLast n a ++ b) = keepLast n (a ++ b) := by
  unfold keepLast
  rw [List.drop_append_eq_append_drop, List.drop_append_eq_append_drop, List.drop_drop,
    List.length_append, List.length_append, List.length_drop]
  have h1 : a.length - n + (a.length - (a.length - n) + b.length - n)
      = a.length + b.length - n := by omega
  have h2 : a.length - (a.length - n) + b.length - n - (a.length - (a.length - n))
      = a.length + b.length - n - a.length := by omega
  rw [h1, h2]

theorem foldl_layerAppend (xs : List LogLine) :
    ∀ v : List LogLine, v.length ≤ 500 →
      xs.foldl layerAppend v = keepLast 500 (v ++ xs) := by
  induction xs with
  | nil =>
      intro v hv
      simp only [List.foldl_nil, List.append_nil, keepLast,
        Nat.sub_eq_zero_of_le hv, List.drop_zero]
  | cons x xs ih =>
      intro v hv
      rw [List.foldl_cons, layerAppend_eq,
        ih (keepLast 500 (v ++ [x])) (keepLast_length_le 500 (v ++ [x])),
        keepLast_append]
      rw [List.append_assoc]
      rfl

/-- A state with one live primary daemon listening on internal port 44001. -/
def sW : ManagerState :=
  { daemons := [⟨⟨0, 9090, "d", "sk", "/ip4/0.0.0.0/tcp/44001", true, "did:test:0"⟩, false⟩]
    logs := [(0, [])], nextIndex := 1 }

/-- An all-ok environment in which a config file already exists and carries
an orchestrator-unknown field. -/
def envC1 : StartEnv :=
  { envOk with configFileExists := true
               existingConfig := [("schema_version", "3"), ("custom", "x"),
                                  ("boot_peers", "old")] }

/-- Claim C1: when a start call reaches the merge step (no port conflict, no
probe hit), a config file already exists and the computed boot-peers list is
non-empty, the file written back is the loaded one with only `boot_peers`
replaced: the `boot_peers` field holds the computed peers and every other
field — orchestrator-unknown fields included — round-trips unchanged (same
fields, same values, same order). The config store outside this repository is
modelled from the spec as an opaque field map. -/
theorem start_config_merge (s : ManagerState) (cfg : DaemonConfig) (env : StartEnv)
    (hex : env.configFileExists = true) (hsave : env.configSaveOk = true)
    (hconf : trackedConflict s cfg = false) (hprobe : env.tcpProbeConnects = false)
    (hne : bootPeersOf s ≠ []) :
    ∃ w, (startOutcome s cfg env).configWrite = some w ∧
      List.lookup "boot_peers" w = some (listValue (bootPeersOf s)) ∧
      w.filter (fun kv => !(kv.1 == "boot_peers"))
        = env.existingConfig.filter (fun kv => !(kv.1 == "boot_peers")) := by
  have hcw : (startOutcome s cfg env).configWrite = mergedConfigWrite s cfg env :=
    startOutcome_configWrite s cfg env hconf hprobe
  have hbe : (startBootPeers s).isEmpty = false := by
    rw [startBootPeers_eq]
    cases hb : bootPeersOf s with
    | nil => exact absurd hb hne
    | cons a l => rfl
  have hmw : mergedConfigWrite s cfg env
      = some (setField env.existingConfig "boot_peers" (listValue (bootPeersOf s))) := by
    unfold mergedConfigWrite
    rw [hex, hsave, hbe, startBootPeers_eq]
    rfl
  refine ⟨setField env.existingConfig "boot_peers" (listValue (bootPeersOf s)),
    by rw [hcw, hmw], setField_lookup_self _ _ _, setField_filter_ne _ _ _⟩

/-- Witness for C1: merging one boot peer into an existing config with an
unknown `custom` field rewrites `boot_peers` alone. -/
theorem start_config_merge_witness :
    (startOutcome sW cfgNone envC1).configWrite =
      some [("schema_version", "3"), ("custom", "x"),
            ("boot_peers", "/ip4/127.0.0.1/tcp/44001")] ∧
    List.lookup "boot_peers" [("schema_version", "3"), ("custom", "x"),
        ("boot_peers", "/ip4/127.0.0.1/tcp/44001")] = some (listValue (bootPeersOf sW)) ∧
    [("schema_version", "3"), ("custom", "x"),
        ("boot_peers", "/ip4/127.0.0.1/tcp/44001")].filter (fun kv => !(kv.1 == "boot_peers"))
      = envC1.existingConfig.filter (fun kv => !(kv.1 == "boot_peers")) := by
  obtain ⟨w, hw, h1, h2⟩ := start_config_merge sW cfgNone envC1 rfl rfl (by decide) rfl
    (by decide)
  have hcw : (startOutcome sW cfgNone envC1).configWrite
      = some [("schema_version", "3"), ("custom", "x"),
              ("boot_peers", "/ip4/127.0.0.1/tcp/44001")] := by decide
  rw [hcw] at hw
  injection hw with hww
  rw [← hww] at h1 h2
  exact ⟨hcw, h1, h2⟩

/-- Claim C3: if a start request's resolved external port (explicit override
or computed default) equals the `ws_port` of a tracked instance whose
execution unit has not finished, `start` returns a port-in-use error and
leaves the registry unchanged — registry observations are the live entries,
already-terminated entries being lazily pruned removals per the spec's
`ManagedInstance` semantics — together with the log map and the id counter;
every operation preserves pairwise-distinct ports among registered instances
(so at most one tracked instance claims any external port at any time); and
starting twice with the same explicit override leaves the second call failed
with exactly one registered instance on that port. -/
theorem start_port_conflict_guard :
    (∀ (s : ManagerState) (cfg : DaemonConfig) (env : StartEnv),
      (∃ d ∈ s.daemons, d.finished = false ∧ d.info.ws_port = resolveWsPort s cfg) →
      (startOutcome s cfg env).result =
        Except.error s!"A daemon is already running on ws_port {resolveWsPort s cfg}" ∧
      (startOutcome s cfg env).state.daemons = liveDaemons s ∧
      liveDaemons (startOutcome s cfg env).state = liveDaemons s ∧
      (startOutcome s cfg env).state.logs = s.logs ∧
      (startOutcome s cfg env).state.nextIndex = s.nextIndex) ∧
    (∀ (s : ManagerState) (op : Op), portsDistinct s → portsDistinct (step s op)) ∧
    portsDistinct initState ∧
    (∀ (cfg : DaemonConfig) (env1 env2 : StartEnv) (p : Nat),
      cfg.ws_port = some p →
      (startOutcome initState cfg env1).result.toBool = true →
      (startOutcome (startOutcome initState cfg env1).state cfg env2).result =
        Except.error s!"A daemon is already running on ws_port {p}" ∧
      ((startOutcome (startOutcome initState cfg env1).state cfg env2).state.daemons.filter
        (fun d => d.info.ws_port = p)).length = 1) := by
  have hconflict : ∀ (s : ManagerState) (cfg : DaemonConfig),
      (∃ d ∈ s.daemons, d.finished = false ∧ d.info.ws_port = resolveWsPort s cfg) →
      trackedConflict s cfg = true := by
    intro s cfg ⟨d, hd, hfin, hport⟩
    refine List.any_eq_true.mpr ⟨d, List.mem_filter.mpr ⟨hd, by simp [hfin]⟩, by simp [hport]⟩
  refine ⟨?_, portsDistinct_step, by simp [portsDistinct, initState], ?_⟩
  · intro s cfg env hex
    rw [start_conflict_outcome s cfg env (hconflict s cfg hex)]
    exact ⟨rfl, rfl, liveDaemons_filter_idem s s.logs s.nextIndex, rfl, rfl⟩
  · intro cfg env1 env2 p hp htb
    have hres : resolveWsPort initState cfg = p := by simp [resolveWsPort, hp]
    rcases startOutcome_shape initState cfg env1 with
      ⟨_, _, _, ⟨info, hport, _, _, hdm⟩, _, _⟩ | ⟨htb2, _⟩
    · have hdm1 : (startOutcome initState cfg env1).state.daemons = [⟨info, false⟩] := by
        rw [hdm]; rfl
      have hres2 : resolveWsPort (startOutcome initState cfg env1).state cfg = p := by
        simp [resolveWsPort, hp]
      have hip : info.ws_port = p := by rw [hport, hres]
      have hc2 : trackedConflict (startOutcome initState cfg env1).state cfg = true := by
        unfold trackedConflict
        rw [hdm1, hres2]
        simp [hip]
      rw [start_conflict_outcome _ cfg env2 hc2]
      refine ⟨by rw [hres2], ?_⟩
      rw [hdm1]
      simp [hip]
    · rw [htb] at htb2; exact absurd htb2 (by simp)

/-- Witness for C3: two starts with the same explicit override 9091 from the
initial state; the second fails port-in-use and exactly one registered
instance claims the port. -/
theorem start_port_conflict_guard_witness :
    (startOutcome (startOutcome initState cfgP envOk).state cfgP envOk).result =
      Except.error s!"A daemon is already running on ws_port {(9091 : Nat)}" ∧
    ((startOutcome (startOutcome initState cfgP envOk).state cfgP envOk).state.daemons.filter
      (fun d => d.info.ws_port = 9091)).length = 1 :=
  start_port_conflict_guard.2.2.2 cfgP envOk envOk 9091 rfl (by decide)

/-- Claim C4: a failed `start` leaves the next-instance-id counter unchanged;
a successful one returns `pid` equal to the counter and increments it; and
along any operation sequence from the initial state the ids handed out by
successful starts are exactly `0, 1, 2, ...` in order — the id equals the
number of previously successful starts — hence pairwise distinct and never
reused, stops included. -/
theorem start_id_counter :
    (∀ (s : ManagerState) (cfg : DaemonConfig) (env : StartEnv),
      (startOutcome s cfg env).result.toBool = false →
      (startOutcome s cfg env).state.nextIndex = s.nextIndex) ∧
    (∀ (s : ManagerState) (cfg : DaemonConfig) (env : StartEnv) (inst : DaemonInstance),
      (startOutcome s cfg env).result = Except.ok inst →
      inst.pid = s.nextIndex ∧
      (startOutcome s cfg env).state.nextIndex = s.nextIndex + 1) ∧
    (∀ ops : List Op,
      (runIds initState ops).2 = List.range (runIds initState ops).1.nextIndex ∧
      (runIds initState ops).2.Nodup) := by
  refine ⟨?_, ?_, ?_⟩
  · intro s cfg env htb
    rcases startOutcome_shape s cfg env with ⟨htb2, _⟩ | ⟨_, _, hni, _⟩
    · rw [htb] at htb2; exact absurd htb2 (by simp)
    · exact hni
  · intro s cfg env inst hres
    rcases startOutcome_shape s cfg env with
      ⟨_, _, _, ⟨info, _, hpid, hok, _⟩, _, hni⟩ | ⟨htb, _⟩
    · rw [hres] at hok
      have hinfo : info = inst := by
        injection hok with hinj
        exact hinj.symm
      exact ⟨hinfo ▸ hpid, hni⟩
    · rw [hres] at htb; exact absurd htb (by simp [Except.toBool])
  · intro ops
    have h2 : (runIds initState ops).2 = List.range (runIds initState ops).1.nextIndex :=
      foldl_stepIds_inv ops initState [] (by simp [initState])
    exact ⟨h2, by rw [h2]; exact List.nodup_range _⟩

/-- Witness for C4: a probe-failing start keeps the counter at 0; a
successful start from the initial state returns id 0 and moves the counter
to 1; a concrete start-stop trace hands out distinct ids. -/
theorem start_id_counter_witness :
    (startOutcome initState cfgNone envProbe).state.nextIndex = initState.nextIndex ∧
    (⟨0, 9091, "/home/u/.craftobj", "/tmp/craftobj.sock", "/ip4/0.0.0.0/tcp/44001", true,
      "did:test:0"⟩ : DaemonInstance).pid = initState.nextIndex ∧
    (startOutcome initState cfgNone envOk).state.nextIndex = initState.nextIndex + 1 ∧
    (runIds initState [Op.start cfgNone envOk, Op.stop 0]).2.Nodup := by
  refine ⟨start_id_counter.1 initState cfgNone envProbe (by decide),
    (start_id_counter.2.1 initState cfgNone envOk
      ⟨0, 9091, "/home/u/.craftobj", "/tmp/craftobj.sock", "/ip4/0.0.0.0/tcp/44001", true,
        "did:test:0"⟩ (by decide)).1,
    (start_id_counter.2.1 initState cfgNone envOk
      ⟨0, 9091, "/home/u/.craftobj", "/tmp/craftobj.sock", "/ip4/0.0.0.0/tcp/44001", true,
        "did:test:0"⟩ (by decide)).2,
    (start_id_counter.2.2 [Op.start cfgNone envOk, Op.stop 0]).2⟩

/-- Claim C6: for every instance id and since index, `get_logs` returns the
buffered lines at or after `since` in arrival order when `since` is below the
buffer's length, and returns an empty sequence — it is a total function, never
an error — both when `since` is at or past the length and when no buffer
exists for that id (unknown or stopped instance). -/
theorem getLogs_spec (s : ManagerState) (pid since : Nat) :
    (∀ v, lmGet s.logs pid = some v →
      (since < v.length → getLogsFn s pid since = v.drop since) ∧
      (v.length ≤ since → getLogsFn s pid since = [])) ∧
    (lmGet s.logs pid = none → getLogsFn s pid since = []) := by
  refine ⟨fun v hv => ⟨fun hlt => ?_, fun hge => ?_⟩, fun hn => ?_⟩
  · simp [getLogsFn, hv, hlt]
  · simp [getLogsFn, hv, Nat.not_lt.mpr hge]
  · simp [getLogsFn, hn]

/-- Witness for C6: a concrete two-line buffer, queried in range, at the
length, and at an unknown id. -/
theorem getLogs_spec_witness :
    getLogsFn { daemons := [], logs := [(0, [⟨0, "a", false⟩, ⟨0, "b", false⟩])], nextIndex := 1 } 0 1
      = [⟨0, "b", false⟩] ∧
    getLogsFn { daemons := [], logs := [(0, [⟨0, "a", false⟩, ⟨0, "b", false⟩])], nextIndex := 1 } 0 2
      = [] ∧
    getLogsFn { daemons := [], logs := [(0, [⟨0, "a", false⟩, ⟨0, "b", false⟩])], nextIndex := 1 } 7 0
      = [] := by
  refine ⟨?_, ?_, ?_⟩
  · have h := ((getLogs_spec ⟨[], [(0, [⟨0, "a", false⟩, ⟨0, "b", false⟩])], 1⟩ 0 1).1
      [⟨0, "a", false⟩, ⟨0, "b", false⟩] rfl).1 (by decide)
    simpa using h
  · exact ((getLogs_spec ⟨[], [(0, [⟨0, "a", false⟩, ⟨0, "b", false⟩])], 1⟩ 0 2).1
      [⟨0, "a", false⟩, ⟨0, "b", false⟩] rfl).2 (by decide)
  · exact (getLogs_spec ⟨[], [(0, [⟨0, "a", false⟩, ⟨0, "b", false⟩])], 1⟩ 7 0).2 rfl

/-- Claim C7: `stop` on an unregistered id fails with a NotFound-style error
and leaves registry and log buffers unchanged; on a registered id it removes
the instance from the registry and deletes its log buffer, so `get_logs(id, 0)`
immediately afterwards returns an empty sequence. (The `HashMap`-inherited
key-distinctness of the log map is an explicit hypothesis.) -/
theorem stop_spec (s : ManagerState) (pid : Nat) :
    ((∀ d ∈ s.daemons, d.info.pid ≠ pid) →
      stopFn s pid = (Except.error s!"No daemon with instance ID {pid}", s)) ∧
    ((∃ d ∈ s.daemons, d.info.pid = pid) → logsWF s →
      (stopFn s pid).1 = Except.ok () ∧
      (stopFn s pid).2.daemons = removeFirst s.daemons pid ∧
      lmGet (stopFn s pid).2.logs pid = none ∧
      getLogsFn (stopFn s pid).2 pid 0 = []) := by
  constructor
  · intro hnone
    have h : s.daemons.any (fun d => d.info.pid = pid) = false := by
      simp only [List.any_eq_false, decide_eq_true_eq]
      exact fun d hd => hnone d hd
    simp [stopFn, h]
  · intro hyes hwf
    have h : s.daemons.any (fun d => d.info.pid = pid) = true := by
      obtain ⟨d, hd, he⟩ := hyes
      exact List.any_eq_true.mpr ⟨d, hd, by simp [he]⟩
    have hrm : lmGet (lmRemove s.logs pid) pid = none :=
      lmGet_lmRemove_self s.logs pid hwf
    refine ⟨by simp [stopFn, h], by simp [stopFn, h], by simpa [stopFn, h] using hrm, ?_⟩
    simp [getLogsFn, stopFn, h, hrm]

/-- Witness for C7: stopping id 5 in a one-instance registry fails NotFound
with the state untouched; stopping id 0 succeeds and empties its logs. -/
theorem stop_spec_witness :
    stopFn { daemons := [⟨⟨0, 9091, "d", "s", "a", true, "did"⟩, false⟩],
             logs := [(0, [⟨0, "x", false⟩])], nextIndex := 1 } 5
      = (Except.error "No daemon with instance ID 5",
         { daemons := [⟨⟨0, 9091, "d", "s", "a", true, "did"⟩, false⟩],
           logs := [(0, [⟨0, "x", false⟩])], nextIndex := 1 }) ∧
    getLogsFn (stopFn { daemons := [⟨⟨0, 9091, "d", "s", "a", true, "did"⟩, false⟩],
                        logs := [(0, [⟨0, "x", false⟩])], nextIndex := 1 } 0).2 0 0 = [] := by
  constructor
  · exact (stop_spec ⟨[⟨⟨0, 9091, "d", "s", "a", true, "did"⟩, false⟩],
      [(0, [⟨0, "x", false⟩])], 1⟩ 5).1 (by decide)
  · exact ((stop_spec ⟨[⟨⟨0, 9091, "d", "s", "a", true, "did"⟩, false⟩],
      [(0, [⟨0, "x", false⟩])], 1⟩ 0).2 (by simp) (by simp [logsWF])).2.2.2

/-- Claim C8 (the code contradicts it): the live TCP probe issued by `start`
is the plain one-argument `std::net::TcpStream::connect`, which supplies no
explicit connect timeout at all — `TcpStream::connect_timeout` is not used —
so no "short connection timeout" bounds the probe. -/
theorem startTcpProbe_no_timeout (ws_port : Nat) :
    (startTcpProbe ws_port).timeoutMs = none :=
  rfl

/-- Claim C9: `start` never reads `binary_path`; two requests differing only
in that field produce identical outcomes — same returned result, same
registry, same log map, same counter, and the same config-file write. -/
theorem start_ignores_binary_path (s : ManagerState) (cfg : DaemonConfig)
    (env : StartEnv) (bp : Option String) :
    startOutcome s { cfg with binary_path := bp } env = startOutcome s cfg env := by
  cases cfg
  rfl

/-- Claim C10: for every live tracked instance whose `listen_addr`'s last
`/`-separated segment does not parse as a u16, the boot peer built for it is
`/ip4/127.0.0.1/tcp/0` — the parse failure is replaced by port 0, the entry
is still included (the peer list maps every live instance), and no error is
produced. -/
theorem bootPeer_parse_failure (s : ManagerState) (d : ManagedDaemon)
    (hmem : d ∈ s.daemons) (hfin : d.finished = false)
    (hparse : parseU16 (lastSegment d.info.listen_addr) = none) :
    bootPeerOf d = "/ip4/127.0.0.1/tcp/0" ∧
    "/ip4/127.0.0.1/tcp/0" ∈ bootPeersOf s ∧
    (bootPeersOf s).length = (liveDaemons s).length := by
  have hb : bootPeerOf d = "/ip4/127.0.0.1/tcp/0" := by
    simp only [bootPeerOf, hparse, Option.getD_none]
    decide
  refine ⟨hb, ?_, by simp [bootPeersOf]⟩
  have hlive : d ∈ liveDaemons s := by
    simp [liveDaemons, List.mem_filter, hmem, hfin]
  exact hb ▸ List.mem_map_of_mem bootPeerOf hlive

/-- Witness for C10: a live instance whose listen address ends in a
non-numeric segment yields the port-0 loopback boot peer. -/
theorem bootPeer_parse_failure_witness :
    bootPeerOf ⟨⟨0, 9091, "d", "s", "/ip4/0.0.0.0/tcp/abc", true, "did"⟩, false⟩
      = "/ip4/127.0.0.1/tcp/0" ∧
    "/ip4/127.0.0.1/tcp/0" ∈ bootPeersOf
      { daemons := [⟨⟨0, 9091, "d", "s", "/ip4/0.0.0.0/tcp/abc", true, "did"⟩, false⟩],
        logs := [(0, [])], nextIndex := 1 } := by
  have h := bootPeer_parse_failure
    ⟨[⟨⟨0, 9091, "d", "s", "/ip4/0.0.0.0/tcp/abc", true, "did"⟩, false⟩], [(0, [])], 1⟩
    ⟨⟨0, 9091, "d", "s", "/ip4/0.0.0.0/tcp/abc", true, "did"⟩, false⟩
    (by simp) rfl (by decide)
  exact ⟨h.1, h.2.1⟩


/-- Claim C5 (the code violates it as stated): a concrete append sequence in
which 500 records arrive through the capped log layer and the spawned task
then records a daemon-init failure leaves the buffer at 501 entries — the
init-failure push (`daemon_manager.rs`, the `init_daemon` error arm) is a
plain `Vec::push` with no eviction, so "at most 500 entries for every
sequence of appended log records" is false. -/
theorem buffer_cap_counterexample :
    (applyAppends ((List.replicate 500 (⟨0, "ln", false⟩ : LogLine)).map AppendOp.layer ++
        [AppendOp.initFailure ⟨0, "boom", true⟩]) []).length = 501 ∧
    ¬ (applyAppends ((List.replicate 500 (⟨0, "ln", false⟩ : LogLine)).map AppendOp.layer ++
        [AppendOp.initFailure ⟨0, "boom", true⟩]) []).length ≤ 500 := by
  have hfun : (fun (x : List LogLine) (y : LogLine) => applyAppend x (AppendOp.layer y))
      = layerAppend := by
    funext x y
    rfl
  have hlayer : List.foldl applyAppend ([] : List LogLine)
      ((List.replicate 500 (⟨0, "ln", false⟩ : LogLine)).map AppendOp.layer)
      = List.foldl layerAppend [] (List.replicate 500 (⟨0, "ln", false⟩ : LogLine)) := by
    rw [List.foldl_map, hfun]
  have hkeep : List.foldl layerAppend ([] : List LogLine)
      (List.replicate 500 (⟨0, "ln", false⟩ : LogLine))
      = keepLast 500 ([] ++ List.replicate 500 (⟨0, "ln", false⟩ : LogLine)) :=
    foldl_layerAppend _ [] (by rw [List.length_nil]; omega)
  have hlen : (List.foldl applyAppend ([] : List LogLine)
      ((List.replicate 500 (⟨0, "ln", false⟩ : LogLine)).map AppendOp.layer)).length = 500 := by
    rw [hlayer, hkeep, List.nil_append]
    unfold keepLast
    rw [List.length_drop, List.length_replicate]
  have hfin : (applyAppends ((List.replicate 500 (⟨0, "ln", false⟩ : LogLine)).map
      AppendOp.layer ++ [AppendOp.initFailure ⟨0, "boom", true⟩]) []).length = 501 := by
    unfold applyAppends
    rw [List.foldl_append, List.foldl_cons, List.foldl_nil]
    show (initFailAppend _ _).length = 501
    unfold initFailAppend
    rw [List.length_append, hlen]
    rfl
  exact ⟨hfin, by rw [hfin]; omega⟩

/-- Claim C5 as amended: appends delivered through `DaemonLogLayer::on_event`
keep the buffer at no more than 500 entries with FIFO eviction — after any
600 layer appends from an empty buffer exactly the most recent 500 lines
remain in their original relative order — while the single direct error-line
push on daemon-init failure appends without evicting and is the one append
path that can leave the buffer over the cap. -/
theorem buffer_cap_amended :
    (∀ xs : List LogLine, (xs.foldl layerAppend []).length ≤ 500) ∧
    (∀ xs : List LogLine, xs.foldl layerAppend [] = keepLast 500 xs) ∧
    (∀ xs : List LogLine, xs.length = 600 → xs.foldl layerAppend [] = xs.drop 100) ∧
    (∀ (v : List LogLine) (l : LogLine), (initFailAppend v l).length = v.length + 1) := by
  have hk : ∀ xs : List LogLine, xs.foldl layerAppend [] = keepLast 500 xs := by
    intro xs
    rw [foldl_layerAppend xs [] (by rw [List.length_nil]; omega)]
    rfl
  refine ⟨?_, hk, ?_, ?_⟩
  · intro xs
    rw [hk]
    exact keepLast_length_le 500 xs
  · intro xs h600
    rw [hk]
    unfold keepLast
    rw [h600]
  · intro v l
    simp [initFailAppend]

/-- Witness for C5 as amended: 600 concrete lines foldl to their last 500. -/
theorem buffer_cap_amended_witness :
    (List.replicate 600 (⟨0, "ln", false⟩ : LogLine)).foldl layerAppend []
      = (List.replicate 600 (⟨0, "ln", false⟩ : LogLine)).drop 100 :=
  buffer_cap_amended.2.2.1 (List.replicate 600 ⟨0, "ln", false⟩) (by rw [List.length_replicate])


/-- Registered instance ids. -/
def pidsOf (s : ManagerState) : List Nat :=
  s.daemons.map (fun d => d.info.pid)

/-- Keys of the log map. -/
def keysOf (s : ManagerState) : List Nat :=
  s.logs.map Prod.fst

theorem logKeysMatch_iff (s : ManagerState) :
    logKeysMatch s = true ↔ ∀ x, (x ∈ keysOf s ↔ x ∈ pidsOf s) := by
  unfold logKeysMatch keysOf pidsOf
  simp only [Bool.and_eq_true, List.all_eq_true, List.any_eq_true, decide_eq_true_eq,
    List.mem_map]
  constructor
  · rintro ⟨h1, h2⟩ x
    constructor
    · rintro ⟨kv, hkv, rfl⟩
      obtain ⟨d, hd, he⟩ := h1 kv hkv
      exact ⟨d, hd, he⟩
    · rintro ⟨d, hd, rfl⟩
      obtain ⟨kv, hkv, he⟩ := h2 d hd
      exact ⟨kv, hkv, he⟩
  · intro h
    constructor
    · intro kv hkv
      exact (h kv.1).mp ⟨kv, hkv, rfl⟩
    · intro d hd
      obtain ⟨kv, hkv, he⟩ := (h d.info.pid).mpr ⟨d, hd, rfl⟩
      exact ⟨kv, hkv, he⟩

theorem keys_lmUpdate (m : LogMap) (k : Nat) (f : List LogLine → List LogLine) :
    (lmUpdate m k f).map Prod.fst = m.map Prod.fst := by
  induction m with
  | nil => rfl
  | cons kv rest ih =>
      by_cases hk : kv.1 = k
      · simp [lmUpdate, hk]
      · simp [lmUpdate, hk, ih]

theorem mem_keys_lmInsert (m : LogMap) (k : Nat) (v : List LogLine) (x : Nat) :
    x ∈ (lmInsert m k v).map Prod.fst ↔ x = k ∨ x ∈ m.map Prod.fst := by
  induction m with
  | nil => simp [lmInsert, eq_comm]
  | cons kv rest ih =>
      by_cases hk : kv.1 = k
      · subst hk
        rw [show lmInsert (kv :: rest) kv.1 v = (kv.1, v) :: rest from by
          simp only [lmInsert, if_true]]
        simp only [List.map_cons, List.mem_cons]
        tauto
      · rw [show lmInsert (kv :: rest) k v = kv :: lmInsert rest k v from by
          simp only [lmInsert]; rw [if_neg hk]]
        simp only [List.map_cons, List.mem_cons, ih]
        tauto

theorem keys_lmInsert_nodup (m : LogMap) (k : Nat) (v : List LogLine)
    (hn : (m.map Prod.fst).Nodup) : ((lmInsert m k v).map Prod.fst).Nodup := by
  induction m with
  | nil => simp [lmInsert]
  | cons kv rest ih =>
      simp only [List.map_cons, List.nodup_cons] at hn
      by_cases hk : kv.1 = k
      · subst hk
        rw [show lmInsert (kv :: rest) kv.1 v = (kv.1, v) :: rest from by
          simp only [lmInsert, if_true]]
        simp only [List.map_cons, List.nodup_cons]
        exact ⟨hn.1, hn.2⟩
      · rw [show lmInsert (kv :: rest) k v = kv :: lmInsert rest k v from by
          simp only [lmInsert]; rw [if_neg hk]]
        simp only [List.map_cons, List.nodup_cons]
        refine ⟨?_, ih hn.2⟩
        rw [mem_keys_lmInsert]
        rintro (he | hm)
        · exact hk he
        · exact hn.1 hm

theorem mem_keys_lmRemove (m : LogMap) (k : Nat) (x : Nat)
    (hn : (m.map Prod.fst).Nodup) :
    x ∈ (lmRemove m k).map Prod.fst ↔ (x ∈ m.map Prod.fst ∧ x ≠ k) := by
  induction m with
  | nil => simp [lmRemove]
  | cons kv rest ih =>
      simp only [List.map_cons, List.nodup_cons] at hn
      by_cases hk : kv.1 = k
      · simp only [lmRemove, if_pos hk, List.map_cons, List.mem_cons]
        constructor
        · intro hx
          refine ⟨Or.inr hx, fun he => ?_⟩
          rw [he, ← hk] at hx
          exact hn.1 hx
        · rintro ⟨hx | hx, hne⟩
          · exact absurd (hx.trans hk) hne
          · exact hx
      · simp only [lmRemove, if_neg hk, List.map_cons, List.mem_cons, ih hn.2]
        constructor
        · rintro (he | ⟨hx, hne⟩)
          · exact ⟨Or.inl he, fun hek => hk (he.symm.trans hek)⟩
          · exact ⟨Or.inr hx, hne⟩
        · rintro ⟨hx | hx, hne⟩
          · exact Or.inl hx
          · exact Or.inr ⟨hx, hne⟩

theorem keys_lmRemove_sublist (m : LogMap) (k : Nat) :
    ((lmRemove m k).map Prod.fst).Sublist (m.map Prod.fst) := by
  induction m with
  | nil => simp [lmRemove]
  | cons kv rest ih =>
      by_cases hk : kv.1 = k
      · simp only [lmRemove, if_pos hk, List.map_cons]
        exact (List.sublist_cons_self _ _)
      · simp only [lmRemove, if_neg hk, List.map_cons]
        exact ih.cons₂ _

theorem mem_pids_removeFirst (l : List ManagedDaemon) (k : Nat) (x : Nat)
    (hn : (l.map (fun d => d.info.pid)).Nodup) :
    x ∈ (removeFirst l k).map (fun d => d.info.pid)
      ↔ (x ∈ l.map (fun d => d.info.pid) ∧ x ≠ k) := by
  induction l with
  | nil => simp [removeFirst]
  | cons d rest ih =>
      simp only [List.map_cons, List.nodup_cons] at hn
      by_cases hd : d.info.pid = k
      · rw [show removeFirst (d :: rest) k = rest from by
          simp only [removeFirst]; rw [if_pos hd]]
        simp only [List.map_cons, List.mem_cons]
        constructor
        · intro hx
          refine ⟨Or.inr hx, fun he => ?_⟩
          rw [he, ← hd] at hx
          exact hn.1 hx
        · rintro ⟨hx | hx, hne⟩
          · exact absurd (hx.trans hd) hne
          · exact hx
      · rw [show removeFirst (d :: rest) k = d :: removeFirst rest k from by
          simp only [removeFirst]; rw [if_neg hd]]
        simp only [List.map_cons, List.mem_cons, ih hn.2]
        constructor
        · rintro (he | ⟨hx, hne⟩)
          · exact ⟨Or.inl he, fun hek => hd (he.symm.trans hek)⟩
          · exact ⟨Or.inr hx, hne⟩
        · rintro ⟨hx | hx, hne⟩
          · exact Or.inl hx
          · exact Or.inr ⟨hx, hne⟩

theorem filter_live_of_all (l : List ManagedDaemon)
    (h : l.all (fun d => !d.finished) = true) :
    l.filter (fun d => !d.finished) = l :=
  List.filter_eq_self.mpr (fun d hd => by
    have := List.all_eq_true.mp h d hd
    simpa using this)

/-- Inductive strengthening of the buffer/registry pairing: key sets match,
ids and keys are duplicate-free (as in `Vec` of unique ids and `HashMap`),
and every id is below the counter. -/
def pairingInv (s : ManagerState) : Prop :=
  logKeysMatch s = true ∧ (pidsOf s).Nodup ∧ (keysOf s).Nodup ∧
  (∀ d ∈ s.daemons, d.info.pid < s.nextIndex)


theorem pairingInv_step (s : ManagerState) (op : Op)
    (hs : pairingInv s) (hb : benignB s op = true) : pairingInv (step s op) := by
  obtain ⟨hm, hpn, hkn, hbound⟩ := hs
  have hmatch := (logKeysMatch_iff s).mp hm
  cases op with
  | getLogs pid since => exact ⟨hm, hpn, hkn, hbound⟩
  | stopAll =>
      refine ⟨rfl, by simp [pidsOf, step, stopAllFn], by simp [keysOf, step, stopAllFn], ?_⟩
      intro d hd
      simp [step, stopAllFn] at hd
  | logEvent id line =>
      have hkeys : keysOf (step s (Op.logEvent id line)) = keysOf s := by
        unfold keysOf step
        exact keys_lmUpdate s.logs id _
      refine ⟨?_, hpn, by rw [hkeys]; exact hkn, hbound⟩
      rw [logKeysMatch_iff]
      intro x
      rw [hkeys]
      exact hmatch x
  | initFail id msg =>
      have hkeys : keysOf (step s (Op.initFail id msg)) = keysOf s := by
        unfold keysOf step
        exact keys_lmUpdate s.logs id _
      refine ⟨?_, hpn, by rw [hkeys]; exact hkn, hbound⟩
      rw [logKeysMatch_iff]
      intro x
      rw [hkeys]
      exact hmatch x
  | finish pid =>
      have hpids : pidsOf (step s (Op.finish pid)) = pidsOf s := by
        simp only [step, pidsOf, List.map_map]
        apply List.map_congr_left
        intro d _
        by_cases hd : d.info.pid = pid <;> simp [hd]
      refine ⟨?_, by rw [hpids]; exact hpn, hkn, ?_⟩
      · rw [logKeysMatch_iff]
        intro x
        rw [hpids]
        exact hmatch x
      · intro d hd
        simp only [step, List.mem_map] at hd
        obtain ⟨d0, hd0, he⟩ := hd
        have : d.info.pid = d0.info.pid := by
          by_cases h0 : d0.info.pid = pid <;> simp [h0] at he <;> rw [← he]
        rw [this]
        exact hbound d0 hd0
  | list =>
      have hfix : step s Op.list = s := by
        simp only [step, listFn]
        rw [filter_live_of_all s.daemons (by simpa [benignB] using hb)]
      rw [hfix]
      exact ⟨hm, hpn, hkn, hbound⟩
  | stop pid =>
      by_cases hf : s.daemons.any (fun d => d.info.pid = pid) = true
      · have hstep : step s (Op.stop pid)
            = { s with daemons := removeFirst s.daemons pid
                       logs := lmRemove s.logs pid } := by
          simp [step, stopFn, hf]
        rw [hstep]
        refine ⟨?_, ?_, ?_, ?_⟩
        · rw [logKeysMatch_iff]
          intro x
          show x ∈ (lmRemove s.logs pid).map Prod.fst
            ↔ x ∈ (removeFirst s.daemons pid).map (fun d => d.info.pid)
          rw [mem_keys_lmRemove s.logs pid x hkn, mem_pids_removeFirst s.daemons pid x hpn]
          exact and_congr_left (fun _ => hmatch x)
        · exact (List.Sublist.map _ (removeFirst_sublist s.daemons pid)).nodup hpn
        · exact (keys_lmRemove_sublist s.logs pid).nodup hkn
        · intro d hd
          exact hbound d ((removeFirst_sublist s.daemons pid).subset hd)
      · have hstep : step s (Op.stop pid) = s := by
          simp [step, stopFn, hf]
        rw [hstep]
        exact ⟨hm, hpn, hkn, hbound⟩
  | start cfg env =>
      simp only [benignB, Bool.and_eq_true] at hb
      obtain ⟨hall, hnb⟩ := hb
      have hnb2 : ((startOutcome s cfg env).bufferInitialized &&
          !(startOutcome s cfg env).result.toBool) = false := by
        revert hnb
        cases ((startOutcome s cfg env).bufferInitialized &&
          !(startOutcome s cfg env).result.toBool) <;> simp
      show pairingInv (startOutcome s cfg env).state
      rcases startOutcome_shape s cfg env with
        ⟨_, _, _, ⟨info, _, hpid, _, hdm⟩, hlogs, hni⟩ | ⟨htb, hdm, hni, hrest⟩
      · have hd' : (startOutcome s cfg env).state.daemons
            = s.daemons ++ [⟨info, false⟩] := by
          rw [hdm, filter_live_of_all s.daemons hall]
        have hkeys : ∀ x, x ∈ keysOf (startOutcome s cfg env).state
            ↔ x = s.nextIndex ∨ x ∈ keysOf s := by
          intro x
          unfold keysOf
          rw [hlogs]
          exact mem_keys_lmInsert s.logs s.nextIndex [] x
        have hpids : pidsOf (startOutcome s cfg env).state
            = pidsOf s ++ [s.nextIndex] := by
          unfold pidsOf
          rw [hd', List.map_append]
          simp only [List.map_cons, List.map_nil]
          rw [hpid]
        refine ⟨?_, ?_, ?_, ?_⟩
        · rw [logKeysMatch_iff]
          intro x
          rw [hkeys x, hpids]
          simp only [List.mem_append, List.mem_singleton]
          rw [← hmatch x]
          tauto
        · rw [hpids, List.nodup_append]
          refine ⟨hpn, List.nodup_singleton _, ?_⟩
          intro x hx
          simp only [List.mem_singleton]
          intro hxe
          obtain ⟨d, hd, he⟩ := List.mem_map.mp hx
          have := hbound d hd
          omega
        · unfold keysOf
          rw [hlogs]
          exact keys_lmInsert_nodup s.logs s.nextIndex [] hkn
        · intro d hd
          rw [hd'] at hd
          rw [hni]
          rcases List.mem_append.mp hd with hd | hd
          · exact Nat.lt_succ_of_lt (hbound d hd)
          · simp only [List.mem_singleton] at hd
            rw [hd, hpid]
            exact Nat.lt_succ_self _
      · have hbuf : (startOutcome s cfg env).bufferInitialized = false := by
          cases hbi : (startOutcome s cfg env).bufferInitialized
          · rfl
          · rw [hbi, htb] at hnb2
            simp at hnb2
        rcases hrest with ⟨_, hlogs⟩ | ⟨hbuf2, _⟩
        · have hd' : (startOutcome s cfg env).state.daemons = s.daemons := by
            rw [hdm, filter_live_of_all s.daemons hall]
          have hkeys : keysOf (startOutcome s cfg env).state = keysOf s := by
            unfold keysOf
            rw [hlogs]
          have hpids : pidsOf (startOutcome s cfg env).state = pidsOf s := by
            unfold pidsOf
            rw [hd']
          refine ⟨?_, by rw [hpids]; exact hpn, by rw [hkeys]; exact hkn, ?_⟩
          · rw [logKeysMatch_iff]
            intro x
            rw [hkeys, hpids]
            exact hmatch x
          · intro d hd
            rw [hd'] at hd
            rw [hni]
            exact hbound d hd
        · rw [hbuf] at hbuf2
          exact absurd hbuf2 (by simp)

theorem pairingInv_run (ops : List Op) :
    ∀ s : ManagerState, pairingInv s → benignFrom s ops = true → pairingInv (run s ops) := by
  induction ops with
  | nil => intro s hs _; exact hs
  | cons op ops ih =>
      intro s hs hb
      simp only [benignFrom, Bool.and_eq_true] at hb
      exact ih (step s op) (pairingInv_step s op hs hb.1) hb.2

theorem pairingInv_init : pairingInv initState := by
  refine ⟨rfl, by simp [pidsOf, initState], by simp [keysOf, initState], ?_⟩
  intro d hd
  simp [initState] at hd

/-- Claim C2 (the code violates it as stated): from the initial state, a
successful start followed by the execution unit finishing on its own leaves a
paired state, but the next `list` call prunes the registry entry without
deleting its log buffer — the buffer exists while no `ManagedDaemon` with its
id is registered. -/
theorem log_pairing_counterexample :
    logKeysMatch (run initState [Op.start cfgNone envOk, Op.finish 0]) = true ∧
    logKeysMatch (run initState [Op.start cfgNone envOk, Op.finish 0, Op.list]) = false := by
  constructor
  · decide
  · decide

/-- Claim C2 as amended: a per-instance log buffer exists in the log map iff
a `ManagedDaemon` with that id is in the registry, at every point of every
operation sequence from the initial state in which no operation prunes a
naturally-finished instance (`list`, or the prune step of `start`, with a
finished instance present) and no `start` fails after initializing its log
buffer (the CraftNet-service-creation failure); those excluded cases each
orphan a buffer. -/
theorem log_pairing_amended (ops : List Op) (h : benignFrom initState ops = true) :
    logKeysMatch (run initState ops) = true :=
  (pairingInv_run ops initState pairingInv_init h).1

/-- Witness for C2 as amended: a successful start, a routed log event and a
stop keep buffers and registry paired throughout. -/
theorem log_pairing_amended_witness :
    benignFrom initState [Op.start cfgNone envOk, Op.logEvent 0 "hello", Op.stop 0] = true ∧
    logKeysMatch (run initState [Op.start cfgNone envOk, Op.logEvent 0 "hello", Op.stop 0])
      = true :=
  ⟨by decide, log_pairing_amended _ (by decide)⟩
